import Mathlib

/-!
Shallow embedding of the micro_vm toolchain: the tokenizer, parser and
two-pass assembler of `src/assembler.rs`, and the bytecode interpreter of
`src/vm.rs`.

Modelling conventions:
* machine integers (`u8`, `u16`, `i8`, `i16`, `i32`, `u32`) are `Nat`/`Int`
  with explicit reductions (`% 256`, `% 65536`, `Int.emod`) exactly where
  the Rust code performs a cast or where wrapping arithmetic can actually
  wrap; where a guard already bounds a value so that no wrap can occur
  (e.g. the program counter, which is checked `< 1024` before each fetch),
  plain `Nat` addition is used, which is equal to the wrapped value;
* Rust panics (out-of-bounds indexing of `ram`/`registers`/the length
  table, division overflow, an invalid opcode byte) become a `fault`
  outcome; signed division and remainder use `Int.tdiv`/`Int.tmod`, which
  truncate toward zero as Rust's `/` and `%` do;
* source text is a `List Char` of its bytes (all inputs of interest are
  ASCII, so the byte-level scanner of the Rust code coincides with this
  character-level one);
* the tokenizer's outer loop and the parser's outer loop take a fuel
  argument (each iteration consumes at least one input element, so the
  supplied fuel `length + 1` never runs out on the inputs used here);
* `Vec` push becomes list append; the `HashMap` symbol table (insert
  overwrites) becomes a cons-front association list with first-match
  lookup, so the latest insertion wins, as in the Rust code;
* `Parser::tk` clamps its index and then indexes the token vector; the
  embedding totalises the (out-of-range, hence in Rust panicking) case to
  an `Eof` token, which is never reached on token lists produced by
  `read_all_tokens` since they always end with `Eof`.
-/

namespace MicroVM

/-! ## Instruction set (`src/vm.rs`) -/

inductive Inst where
  | Nop | Exit | JumpFw | JumpBw | Then | Otherwise
  | SetByte | SetShort | Push | Pop
  | Add | Sub | Mul | Div | Mod | Neg
  | GreaterThan | LessThan | GreaterEqual | LessEqual | Equal | NotEqual
  | Return | Call | Mov | Debug
deriving DecidableEq

/-- The `repr(u8)` discriminant of each opcode. -/
def instCode : Inst → Nat
  | .Nop => 0
  | .Exit => 1
  | .JumpFw => 2
  | .JumpBw => 3
  | .Then => 4
  | .Otherwise => 5
  | .SetByte => 6
  | .SetShort => 7
  | .Push => 8
  | .Pop => 9
  | .Add => 10
  | .Sub => 11
  | .Mul => 12
  | .Div => 13
  | .Mod => 14
  | .Neg => 15
  | .GreaterThan => 16
  | .LessThan => 17
  | .GreaterEqual => 18
  | .LessEqual => 19
  | .Equal => 20
  | .NotEqual => 21
  | .Return => 22
  | .Call => 23
  | .Mov => 24
  | .Debug => 25

/-- Inverse of the `transmute::<u8, Inst>` byte-to-opcode reinterpretation:
bytes 0..25 decode to the matching opcode, anything else is invalid. -/
def decodeInst : Nat → Option Inst
  | 0 => some .Nop
  | 1 => some .Exit
  | 2 => some .JumpFw
  | 3 => some .JumpBw
  | 4 => some .Then
  | 5 => some .Otherwise
  | 6 => some .SetByte
  | 7 => some .SetShort
  | 8 => some .Push
  | 9 => some .Pop
  | 10 => some .Add
  | 11 => some .Sub
  | 12 => some .Mul
  | 13 => some .Div
  | 14 => some .Mod
  | 15 => some .Neg
  | 16 => some .GreaterThan
  | 17 => some .LessThan
  | 18 => some .GreaterEqual
  | 19 => some .LessEqual
  | 20 => some .Equal
  | 21 => some .NotEqual
  | 22 => some .Return
  | 23 => some .Call
  | 24 => some .Mov
  | 25 => some .Debug
  | _ => none

/-- `INSTRUCTION_LEN`: encoded length in bytes, indexed by opcode value. -/
def INSTRUCTION_LEN : List Nat :=
  [1, 1, 2, 2, 1, 1, 3, 4, 2, 2, 3, 3, 3, 3, 3, 2, 3, 3, 3, 3, 3, 3, 1, 3, 3, 3]

/-! ## Tokenizer (`read_all_tokens`) -/

inductive TokenType where
  | Id | Int | Comma | NewLine | Colon | Eof
deriving DecidableEq

structure Token where
  ty : TokenType
  span : Nat × Nat
deriving DecidableEq

/-- `source[i]` where every use site is guarded by `i < source.len()`. -/
def charAt (src : List Char) (i : Nat) : Char := src.getD i ' '

def is_ascii_digit (c : Char) : Bool := 48 ≤ c.toNat && c.toNat ≤ 57

def is_ascii_hexdigit (c : Char) : Bool :=
  is_ascii_digit c || (97 ≤ c.toNat && c.toNat ≤ 102) || (65 ≤ c.toNat && c.toNat ≤ 70)

/-- The identifier character class `b'a'..=b'z' | b'_'`. -/
def is_id_char (c : Char) : Bool := (97 ≤ c.toNat && c.toNat ≤ 122) || c = '_'

/-- `while ptr < source.len() && source[ptr] != b'\n' { ptr += 1 }` (fuel
structural recursion so that the kernel can evaluate it; the callers pass
`src.length + 1`, which each at-least-one-step advance never exhausts). -/
def skip_comment (src : List Char) : Nat → Nat → Nat
  | 0, ptr => ptr
  | fuel + 1, ptr =>
    if ptr < src.length ∧ charAt src ptr ≠ '\n' then skip_comment src fuel (ptr + 1)
    else ptr

/-- The digit-consuming loop of the integer case: advance while in bounds
and the current character is a (hex or decimal) digit. -/
def scan_digits (src : List Char) (hex : Bool) : Nat → Nat → Nat
  | 0, ptr => ptr
  | fuel + 1, ptr =>
    if ptr < src.length ∧
        (if hex then is_ascii_hexdigit (charAt src ptr) else is_ascii_digit (charAt src ptr)) then
      scan_digits src hex fuel (ptr + 1)
    else ptr

/-- The identifier-consuming loop: advance while in bounds and the current
character is in `a..z` or `_`. -/
def scan_id (src : List Char) : Nat → Nat → Nat
  | 0, ptr => ptr
  | fuel + 1, ptr =>
    if ptr < src.length ∧ is_id_char (charAt src ptr) then scan_id src fuel (ptr + 1)
    else ptr

def read_all_tokens_loop (src : List Char) : Nat → Nat → List Token
  | 0, ptr => [⟨.Eof, (ptr, ptr)⟩]
  | fuel + 1, ptr =>
    if ptr ≥ src.length then [⟨.Eof, (ptr, ptr)⟩]
    else
      let c := charAt src ptr
      if c = ';' then read_all_tokens_loop src fuel (skip_comment src (src.length + 1) ptr)
      else if c = ' ' then read_all_tokens_loop src fuel (ptr + 1)
      else if c = ',' then ⟨.Comma, (ptr, ptr + 1)⟩ :: read_all_tokens_loop src fuel (ptr + 1)
      else if c = '\n' then ⟨.NewLine, (ptr, ptr + 1)⟩ :: read_all_tokens_loop src fuel (ptr + 1)
      else if c = ':' then ⟨.Colon, (ptr, ptr + 1)⟩ :: read_all_tokens_loop src fuel (ptr + 1)
      else if is_ascii_digit c then
        let hex := c == '0' && decide (ptr + 2 < src.length) && charAt src (ptr + 1) == 'x'
          && is_ascii_digit (charAt src (ptr + 2))
        let stop := scan_digits src hex (src.length + 1) (if hex then ptr + 2 else ptr)
        ⟨.Int, (ptr, stop)⟩ :: read_all_tokens_loop src fuel stop
      else if is_id_char c then
        let stop := scan_id src (src.length + 1) ptr
        ⟨.Id, (ptr, stop)⟩ :: read_all_tokens_loop src fuel stop
      else read_all_tokens_loop src fuel (ptr + 1)

def read_all_tokens (src : List Char) : List Token :=
  read_all_tokens_loop src (src.length + 1) 0

/-! ## Parser (`Parser`, `ParsedInst`) -/

inductive ParsedInst where
  | Label (label : String)
  | Nop
  | Exit
  | Jump (label : String)
  | Then
  | Otherwise
  | SetByte (dst : Nat) (val : Nat)
  | SetShort (dst : Nat) (val : Nat)
  | Push (src : Nat)
  | Pop (dst : Nat)
  | Add (dst src : Nat)
  | Sub (dst src : Nat)
  | Mul (dst src : Nat)
  | Div (dst src : Nat)
  | Mod (dst src : Nat)
  | Neg (dst : Nat)
  | GreaterThan (left right : Nat)
  | LessThan (left right : Nat)
  | GreaterEqual (left right : Nat)
  | LessEqual (left right : Nat)
  | Equal (left right : Nat)
  | NotEqual (left right : Nat)
  | Return
  | Call (label : String)
  | Mov (dst src : Nat)
  | Debug (src mode : Nat)
deriving DecidableEq

structure ParserSt where
  source : List Char
  tokens : List Token
  pos : Nat

/-- `Parser::tk` (with its index clamp; out of range totalised to `Eof`,
see the header note). -/
def tk (p : ParserSt) (pos : Nat) : Token :=
  p.tokens.getD (min pos p.tokens.length) ⟨.Eof, (0, 0)⟩

/-- `Parser::str`: the source text of a span. -/
def strSpan (p : ParserSt) (span : Nat × Nat) : String :=
  ((p.source.drop span.1).take (span.2 - span.1)).asString

def expect (p : ParserSt) (ty : TokenType) : Except String Unit :=
  if (tk p p.pos).ty = ty then .ok () else .error "Expected token of a different type"

def consume (p : ParserSt) (ty : TokenType) : Except String ParserSt := do
  let _ ← expect p ty
  pure { p with pos := p.pos + 1 }

def expect_id (p : ParserSt) : Except String String :=
  let t := tk p p.pos
  if t.ty = .Id then .ok (strSpan p t.span) else .error "Expected Id"

def consume_id (p : ParserSt) : Except String (String × ParserSt) := do
  let name ← expect_id p
  pure (name, { p with pos := p.pos + 1 })

/-- Value of a decimal digit string, or `none` on any non-digit. -/
def digits_value (ds : List Char) : Option Nat :=
  ds.foldl
    (fun acc c =>
      match acc with
      | none => none
      | some v => if is_ascii_digit c then some (v * 10 + (c.toNat - 48)) else none)
    (some 0)

/-- `str::parse::<i32>()`: optional sign, then decimal digits only, with
the `i32` range check.  In particular a hex-looking string such as
`"0x10"` is rejected at the `'x'`. -/
def parse_i32 (s : String) : Except String Int :=
  let cs := s.toList
  let signStripped : Bool × List Char :=
    match cs with
    | '-' :: rest => (true, rest)
    | '+' :: rest => (false, rest)
    | _ => (false, cs)
  let neg := signStripped.1
  let ds := signStripped.2
  if ds.isEmpty then .error "Unable to parse integer: invalid input"
  else
    match digits_value ds with
    | none => .error "Unable to parse integer: invalid digit found in string"
    | some v =>
      if neg then
        if (v : Int) ≤ 2 ^ 31 then .ok (-(v : Int))
        else .error "Unable to parse integer: number too small to fit in target type"
      else
        if v < 2 ^ 31 then .ok (v : Int)
        else .error "Unable to parse integer: number too large to fit in target type"

def expect_int (p : ParserSt) : Except String Int :=
  let t := tk p p.pos
  if t.ty = .Int then parse_i32 (strSpan p t.span) else .error "Expected Int"

def consume_int (p : ParserSt) : Except String (Int × ParserSt) := do
  let n ← expect_int p
  pure (n, { p with pos := p.pos + 1 })

/-- The register-name table of `Parser::parse_reg`. -/
def reg_of_name (text : String) : Except String Nat :=
  match text with
  | "zero" | "z" => .ok 0
  | "$0" | "a" => .ok 1
  | "$1" | "b" => .ok 2
  | "$2" | "c" => .ok 3
  | "$3" | "d" => .ok 4
  | "$4" | "e" => .ok 5
  | "$5" | "f" => .ok 6
  | "$6" | "g" => .ok 7
  | "$7" | "h" => .ok 8
  | "$8" | "i" => .ok 9
  | "$9" | "j" => .ok 10
  | "$10" | "k" => .ok 11
  | "$11" | "l" => .ok 12
  | "$12" | "m" => .ok 13
  | "at" => .ok 14
  | "sp" => .ok 15
  | _ => .error "Expected register name"

def parse_reg (p : ParserSt) : Except String (Nat × ParserSt) := do
  let (text, p1) ← consume_id p
  let r ← reg_of_name text
  pure (r, p1)

def parse_2reg (p : ParserSt) : Except String ((Nat × Nat) × ParserSt) := do
  let (arg1, p1) ← parse_reg p
  let p2 ← consume p1 .Comma
  let (arg2, p3) ← parse_reg p2
  pure ((arg1, arg2), p3)

/-- `i32 as u32`: two's-complement reinterpretation. -/
def i32_as_u32 (n : Int) : Nat := (n.emod (2 ^ 32)).toNat

/-- One source line: a mnemonic with its operands, or `label:`.  Returns
the single parsed instruction that the Rust code pushes, plus the parser
state after the trailing newline handling. -/
def parse_instruction (p : ParserSt) : Except String (ParsedInst × ParserSt) := do
  let (name, p1) ← consume_id p
  let (inst, p2) ←
    (match name with
     | "nop" => pure (ParsedInst.Nop, p1)
     | "exit" => pure (ParsedInst.Exit, p1)
     | "jmp" => do
       let (arg1, q) ← consume_id p1
       pure (ParsedInst.Jump arg1, q)
     | "then" => pure (ParsedInst.Then, p1)
     | "else" => pure (ParsedInst.Otherwise, p1)
     | "set" => do
       let (arg1, q1) ← parse_reg p1
       let q2 ← consume q1 .Comma
       let (n, q3) ← consume_int q2
       let arg2 := i32_as_u32 n
       if arg2 > 255 then pure (ParsedInst.SetShort arg1 (arg2 % 65536), q3)
       else pure (ParsedInst.SetByte arg1 (arg2 % 256), q3)
     | "push" => do
       let (arg1, q) ← parse_reg p1
       pure (ParsedInst.Push arg1, q)
     | "pop" => do
       let (arg1, q) ← parse_reg p1
       pure (ParsedInst.Pop arg1, q)
     | "add" => do
       let ((a1, a2), q) ← parse_2reg p1
       pure (ParsedInst.Add a1 a2, q)
     | "sub" => do
       let ((a1, a2), q) ← parse_2reg p1
       pure (ParsedInst.Sub a1 a2, q)
     | "mul" => do
       let ((a1, a2), q) ← parse_2reg p1
       pure (ParsedInst.Mul a1 a2, q)
     | "div" => do
       let ((a1, a2), q) ← parse_2reg p1
       pure (ParsedInst.Div a1 a2, q)
     | "mod" => do
       let ((a1, a2), q) ← parse_2reg p1
       pure (ParsedInst.Mod a1 a2, q)
     | "neg" => do
       let (arg1, q) ← parse_reg p1
       pure (ParsedInst.Neg arg1, q)
     | "gt" => do
       let ((a1, a2), q) ← parse_2reg p1
       pure (ParsedInst.GreaterThan a1 a2, q)
     | "lt" => do
       let ((a1, a2), q) ← parse_2reg p1
       pure (ParsedInst.LessThan a1 a2, q)
     | "ge" => do
       let ((a1, a2), q) ← parse_2reg p1
       pure (ParsedInst.GreaterEqual a1 a2, q)
     | "le" => do
       let ((a1, a2), q) ← parse_2reg p1
       pure (ParsedInst.LessEqual a1 a2, q)
     | "eq" => do
       let ((a1, a2), q) ← parse_2reg p1
       pure (ParsedInst.Equal a1 a2, q)
     | "neq" => do
       let ((a1, a2), q) ← parse_2reg p1
       pure (ParsedInst.NotEqual a1 a2, q)
     | "ret" => pure (ParsedInst.Return, p1)
     | "call" => do
       let (label, q) ← consume_id p1
       pure (ParsedInst.Call label, q)
     | "mov" => do
       let ((a1, a2), q) ← parse_2reg p1
       pure (ParsedInst.Mov a1 a2, q)
     | "dbg" => do
       let (arg1, q1) ← parse_reg p1
       let q2 ← consume q1 .Comma
       let (mode, q3) ← consume_int q2
       pure (ParsedInst.Debug arg1 (i32_as_u32 mode), q3)
     | _ =>
       match expect p1 .Colon with
       | .ok _ => do
         let q ← consume p1 .Colon
         pure (ParsedInst.Label name, q)
       | .error _ => .error "Found unexpected symbol"
     : Except String (ParsedInst × ParserSt))
  if (tk p2 p2.pos).ty ≠ .Eof then
    let p3 ← consume p2 .NewLine
    pure (inst, p3)
  else
    pure (inst, p2)

def parse_loop : Nat → ParserSt → List ParsedInst → Except String (List ParsedInst)
  | 0, _, _ => .error "parser fuel exhausted"
  | fuel + 1, p, acc =>
    match (tk p p.pos).ty with
    | .Id =>
      match parse_instruction p with
      | .error e => .error e
      | .ok (i, p1) => parse_loop fuel p1 (acc ++ [i])
    | .Int => .error "Unexpected token Int"
    | .Comma => .error "Unexpected token Comma"
    | .NewLine => parse_loop fuel { p with pos := p.pos + 1 } acc
    | .Colon => .error "Unexpected token Colon"
    | .Eof => .ok acc

/-- `Parser::parse`. -/
def parse (p : ParserSt) : Except String (List ParsedInst) :=
  parse_loop (p.tokens.length + 1) p []

/-! ## Two-pass assembler (`Compiler`) -/

inductive PrecompiledInst where
  | JumpPlaceHolder (label : String) (pos : Nat)
  | CallPlaceHolder (label : String)
  | Compiled1 (i : Inst)
  | Compiled2 (i : Inst) (a : Nat)
  | Compiled3 (i : Inst) (a b : Nat)
  | Compiled4 (i : Inst) (a b c : Nat)
deriving DecidableEq

structure CompilerSt where
  symbol_table : List (String × Nat)
  buffer : List PrecompiledInst
  pos : Nat
deriving DecidableEq

/-- `HashMap::get` on the cons-front association list: the most recent
insertion wins, like `HashMap::insert`'s overwrite. -/
def lookupLabel (tbl : List (String × Nat)) (label : String) : Option Nat :=
  match tbl.find? (fun e => e.1 == label) with
  | some e => some e.2
  | none => none

def inst_1 (c : CompilerSt) (i : Inst) : CompilerSt :=
  { c with buffer := c.buffer ++ [.Compiled1 i], pos := c.pos + 1 }

def inst_2 (c : CompilerSt) (i : Inst) (a : Nat) : CompilerSt :=
  { c with buffer := c.buffer ++ [.Compiled2 i a], pos := c.pos + 2 }

def inst_3 (c : CompilerSt) (i : Inst) (a b : Nat) : CompilerSt :=
  { c with buffer := c.buffer ++ [.Compiled3 i a b], pos := c.pos + 3 }

def inst_4 (c : CompilerSt) (i : Inst) (a b cc : Nat) : CompilerSt :=
  { c with buffer := c.buffer ++ [.Compiled4 i a b cc], pos := c.pos + 4 }

/-- One instruction of `Compiler::precompile`'s pass-1 walk.  Operand
casts `as u8` are `% 256`; `(val >> 8) as u8` is `/ 256 % 256`. -/
def precompile_inst (c : CompilerSt) : ParsedInst → CompilerSt
  | .Label label => { c with symbol_table := (label, c.pos) :: c.symbol_table }
  | .Nop => inst_1 c .Nop
  | .Exit => inst_1 c .Exit
  | .Jump label => { c with buffer := c.buffer ++ [.JumpPlaceHolder label c.pos], pos := c.pos + 2 }
  | .Then => inst_1 c .Then
  | .Otherwise => inst_1 c .Otherwise
  | .SetByte dst val => inst_3 c .SetByte (dst % 256) (val % 256)
  | .SetShort dst val => inst_4 c .SetShort (dst % 256) (val / 256 % 256) (val % 256)
  | .Push src => inst_2 c .Push (src % 256)
  | .Pop dst => inst_2 c .Pop (dst % 256)
  | .Add dst src => inst_3 c .Add (dst % 256) (src % 256)
  | .Sub dst src => inst_3 c .Sub (dst % 256) (src % 256)
  | .Mul dst src => inst_3 c .Mul (dst % 256) (src % 256)
  | .Div dst src => inst_3 c .Div (dst % 256) (src % 256)
  | .Mod dst src => inst_3 c .Mod (dst % 256) (src % 256)
  | .Neg dst => inst_2 c .Neg (dst % 256)
  | .GreaterThan left right => inst_3 c .GreaterThan (left % 256) (right % 256)
  | .LessThan left right => inst_3 c .LessThan (left % 256) (right % 256)
  | .GreaterEqual left right => inst_3 c .GreaterEqual (left % 256) (right % 256)
  | .LessEqual left right => inst_3 c .LessEqual (left % 256) (right % 256)
  | .Equal left right => inst_3 c .Equal (left % 256) (right % 256)
  | .NotEqual left right => inst_3 c .NotEqual (left % 256) (right % 256)
  | .Return => inst_1 c .Return
  | .Call label => { c with buffer := c.buffer ++ [.CallPlaceHolder label], pos := c.pos + 3 }
  | .Mov dst src => inst_3 c .Mov (dst % 256) (src % 256)
  | .Debug src mode => inst_3 c .Debug (src % 256) (mode % 256)

/-- `Compiler::precompile`: pass 1 over all instructions, then the
implicit trailing `Exit`. -/
def precompile (insts : List ParsedInst) : CompilerSt :=
  inst_1 (insts.foldl precompile_inst { symbol_table := [], buffer := [], pos := 0 }) .Exit

/-- Pass-2 resolution of one buffer entry (the body of the `for` loop of
`Compiler::compile`).  For a jump, `diff as u8` is the two's-complement
byte truncation `Int.emod 256`. -/
def resolve (tbl : List (String × Nat)) : PrecompiledInst → Except String (List Nat)
  | .JumpPlaceHolder label pos =>
    match lookupLabel tbl label with
    | none => .error ("Jump to invalid label: " ++ label)
    | some target =>
      let diff : Int := (target : Int) - (pos : Int)
      if diff > 0 then .ok [instCode .JumpFw, (diff.emod 256).toNat]
      else .ok [instCode .JumpBw, (diff.emod 256).toNat]
  | .CallPlaceHolder label =>
    match lookupLabel tbl label with
    | none => .error ("Call to invalid label: " ++ label)
    | some target => .ok [instCode .Call, target / 256 % 256, target % 256]
  | .Compiled1 i => .ok [instCode i]
  | .Compiled2 i a => .ok [instCode i, a % 256]
  | .Compiled3 i a b => .ok [instCode i, a % 256, b % 256]
  | .Compiled4 i a b cc => .ok [instCode i, a % 256, b % 256, cc % 256]

def compile_buffer (tbl : List (String × Nat)) : List PrecompiledInst → Except String (List Nat)
  | [] => .ok []
  | inst :: rest => do
    let bs ← resolve tbl inst
    let more ← compile_buffer tbl rest
    pure (bs ++ more)

/-- `Compiler::compile`: pass 1 then pass 2, concatenating the resolved
bytes in buffer order. -/
def compile (insts : List ParsedInst) : Except String (List Nat) :=
  let c := precompile insts
  compile_buffer c.symbol_table c.buffer

/-- Tokenize and parse a source text. -/
def parseSource (src : List Char) : Except String (List ParsedInst) :=
  parse { source := src, tokens := read_all_tokens src, pos := 0 }

/-- The whole assembly pipeline: source text to program image. -/
def assemble (src : List Char) : Except String (List Nat) := do
  let insts ← parseSource src
  compile insts

/-- The byte offset a label of the source resolves to in the symbol table
(after pass 1). -/
def labelOffset (src : List Char) (label : String) : Option Nat :=
  match parseSource src with
  | .error _ => none
  | .ok insts => lookupLabel (precompile insts).symbol_table label

/-! ## Virtual machine (`src/vm.rs`)

State: 16 `u16` registers, 1024 bytes of ram, a `u16` program counter and
the condition flag.  Registers and ram are total functions; every read or
write the Rust code performs through an index is guarded here by exactly
the bound that Rust's panicking index check enforces (`< 16` for
registers, `< 1024` for ram, `< 26` for the length table), with the
failing case a `fault`. -/

structure VM where
  registers : Nat → Nat
  ram : Nat → Nat
  pc : Nat
  skip_flag : Bool

def SP_REGISTER : Nat := 15

def AT_REGISTER : Nat := 14

/-- Pointwise function update (an array store). -/
def updFn (f : Nat → Nat) (i v : Nat) : Nat → Nat :=
  fun j => if i = j then v else f j

/-- A `u16` bit pattern read as Rust's `i16`. -/
def toI16 (v : Nat) : Int :=
  if v % 65536 < 32768 then (v % 65536 : Int) else (v % 65536 : Int) - 65536

/-- An `i16` value stored back as a `u16` bit pattern (`as u16`). -/
def toU16 (x : Int) : Nat := (x.emod 65536).toNat

/-- A `u8` bit pattern read as Rust's `i8` (the backward-jump operand). -/
def toI8 (v : Nat) : Int :=
  if v % 256 < 128 then (v % 256 : Int) else (v % 256 : Int) - 256

/-- One observable output of the `Debug` instruction: a `println!` line, a
`print!` fragment, or the full machine-state dump of the default arm. -/
inductive OutEvent where
  | line (s : String)
  | text (s : String)
  | dump
deriving DecidableEq

inductive StepResult where
  | ok (out : List OutEvent) (s : VM)
  | halt (s : VM)
  | fault (msg : String)

/-- Lowercase hex digit (for `format!("{:x}", _)`). -/
def hexChar (n : Nat) : Char := if n < 10 then Char.ofNat (48 + n) else Char.ofNat (87 + n)

/-- Uppercase hex digit (for `format!("{:X}", _)`). -/
def hexCharUpper (n : Nat) : Char := if n < 10 then Char.ofNat (48 + n) else Char.ofNat (55 + n)

def hexDigitsAux (conv : Nat → Char) : Nat → Nat → List Char → List Char
  | 0, _, acc => acc
  | _ + 1, 0, acc => acc
  | fuel + 1, n, acc => hexDigitsAux conv fuel (n / 16) (conv (n % 16) :: acc)

/-- Hexadecimal rendering of a number, no padding, `"0"` for zero. -/
def toHex (conv : Nat → Char) (n : Nat) : String :=
  if n = 0 then "0" else (hexDigitsAux conv (n + 1) n []).asString

/-- Zero left-padding to a minimum width (`{:05}` and `{:04X}`). -/
def padZero (w : Nat) (s : String) : String :=
  (List.replicate (w - s.length) '0').asString ++ s

/-- `Inst::Nop`. -/
def execNop (s : VM) : StepResult := .ok [] s

/-- `Inst::Exit`: `return`, ending the run loop. -/
def execExit (s : VM) : StepResult := .halt s

/-- `Inst::JumpFw`: `pc += ram[pc] as u16 + 1` (the pc points at the
operand byte; it is `< 1024` or the fetch would have faulted, so the sum
stays far below the `u16` wrap). -/
def execJumpFw (s : VM) : StepResult :=
  if s.pc < 1024 then .ok [] { s with pc := s.pc + (s.ram s.pc + 1) }
  else .fault "ram index out of bounds"

/-- `Inst::JumpBw`: `pc = ((pc as i16) + (ram[pc] as i8) as i16 - 1) as u16`. -/
def execJumpBw (s : VM) : StepResult :=
  if s.pc < 1024 then
    .ok [] { s with pc := (((s.pc : Int) + toI8 (s.ram s.pc) - 1).emod 65536).toNat }
  else .fault "ram index out of bounds"

/-- `Inst::Then`: when the flag is clear, advance the pc by the encoded
length of the next opcode, skipping that instruction. -/
def execThen (s : VM) : StepResult :=
  if !s.skip_flag then
    if s.pc < 1024 then
      if s.ram s.pc < 26 then
        .ok [] { s with pc := s.pc + INSTRUCTION_LEN.getD (s.ram s.pc) 0 }
      else .fault "instruction length table index out of bounds"
    else .fault "ram index out of bounds"
  else .ok [] s

/-- `Inst::Otherwise`: when the flag is set, skip the next instruction. -/
def execOtherwise (s : VM) : StepResult :=
  if s.skip_flag then
    if s.pc < 1024 then
      if s.ram s.pc < 26 then
        .ok [] { s with pc := s.pc + INSTRUCTION_LEN.getD (s.ram s.pc) 0 }
      else .fault "instruction length table index out of bounds"
    else .fault "ram index out of bounds"
  else .ok [] s

/-- `Inst::SetByte`: write the operand byte into the operand register,
unless the destination is register 0. -/
def execSetByte (s : VM) : StepResult :=
  if s.pc + 1 < 1024 then
    let reg := s.ram s.pc
    let byte := s.ram (s.pc + 1)
    if reg = 0 then .ok [] { s with pc := s.pc + 2 }
    else if reg < 16 then
      .ok [] { s with registers := updFn s.registers reg byte, pc := s.pc + 2 }
    else .fault "register index out of bounds"
  else .fault "ram index out of bounds"

/-- `Inst::SetShort`: write `(high << 8) | low` into the operand register,
unless the destination is register 0. -/
def execSetShort (s : VM) : StepResult :=
  if s.pc + 2 < 1024 then
    let reg := s.ram s.pc
    let low_bytes := s.ram (s.pc + 2)
    let high_bytes := s.ram (s.pc + 1)
    if reg = 0 then .ok [] { s with pc := s.pc + 3 }
    else if reg < 16 then
      .ok [] { s with registers := updFn s.registers reg (high_bytes <<< 8 ||| low_bytes),
                      pc := s.pc + 3 }
    else .fault "register index out of bounds"
  else .fault "ram index out of bounds"

/-- `Inst::Push`: save the stack pointer, decrement it by 2 (wrapping
`u16` subtraction), then store the source register's low byte at the saved
sp + 1 and its high byte at the saved sp.  Note the register value is read
after the decrement, and the stores use the pre-decrement sp. -/
def execPush (s : VM) : StepResult :=
  let sp := s.registers SP_REGISTER
  let registers1 := updFn s.registers SP_REGISTER ((sp + 65534) % 65536)
  if s.pc < 1024 then
    let reg := s.ram s.pc
    if reg < 16 then
      if (sp + 1) % 65536 < 1024 then
        let ram1 := updFn s.ram ((sp + 1) % 65536) (registers1 reg % 256)
        if sp < 1024 then
          let ram2 := updFn ram1 sp (registers1 reg / 256 % 256)
          .ok [] { registers := registers1, ram := ram2, pc := s.pc + 1,
                   skip_flag := s.skip_flag }
        else .fault "ram index out of bounds"
      else .fault "ram index out of bounds"
    else .fault "register index out of bounds"
  else .fault "ram index out of bounds"

/-- `Inst::Pop`: increment the stack pointer by 2 (wrapping), then read
the two bytes at the incremented sp back into the destination register
(low byte from sp + 1, high byte from sp), unless the destination is
register 0, in which case no memory is read at all. -/
def execPop (s : VM) : StepResult :=
  let registers1 :=
    updFn s.registers SP_REGISTER ((s.registers SP_REGISTER + 2) % 65536)
  let sp := registers1 SP_REGISTER
  if s.pc < 1024 then
    let reg := s.ram s.pc
    if reg = 0 then .ok [] { s with registers := registers1, pc := s.pc + 1 }
    else if reg < 16 then
      if (sp + 1) % 65536 < 1024 then
        let registers2 := updFn registers1 reg (s.ram ((sp + 1) % 65536))
        if sp < 1024 then
          let registers3 := updFn registers2 reg (registers2 reg ||| s.ram sp <<< 8)
          .ok [] { s with registers := registers3, pc := s.pc + 1 }
        else .fault "ram index out of bounds"
      else .fault "ram index out of bounds"
    else .fault "register index out of bounds"
  else .fault "ram index out of bounds"

/-- `Inst::Add`: signed 16-bit wrapping addition into the first register,
skipped entirely when the destination is register 0. -/
def execAdd (s : VM) : StepResult :=
  if s.pc + 1 < 1024 then
    let a := s.ram s.pc
    let b := s.ram (s.pc + 1)
    if a = 0 then .ok [] { s with pc := s.pc + 2 }
    else if a < 16 then
      if b < 16 then
        let x := toI16 (s.registers a)
        let y := toI16 (s.registers b)
        .ok [] { s with registers := updFn s.registers a (toU16 (x + y)), pc := s.pc + 2 }
      else .fault "register index out of bounds"
    else .fault "register index out of bounds"
  else .fault "ram index out of bounds"

/-- `Inst::Sub`: signed 16-bit wrapping subtraction. -/
def execSub (s : VM) : StepResult :=
  if s.pc + 1 < 1024 then
    let a := s.ram s.pc
    let b := s.ram (s.pc + 1)
    if a = 0 then .ok [] { s with pc := s.pc + 2 }
    else if a < 16 then
      if b < 16 then
        let x := toI16 (s.registers a)
        let y := toI16 (s.registers b)
        .ok [] { s with registers := updFn s.registers a (toU16 (x - y)), pc := s.pc + 2 }
      else .fault "register index out of bounds"
    else .fault "register index out of bounds"
  else .fault "ram index out of bounds"

/-- `Inst::Mul`: signed 16-bit multiplication (release-profile wrapping). -/
def execMul (s : VM) : StepResult :=
  if s.pc + 1 < 1024 then
    let a := s.ram s.pc
    let b := s.ram (s.pc + 1)
    if a = 0 then .ok [] { s with pc := s.pc + 2 }
    else if a < 16 then
      if b < 16 then
        .ok [] { s with
                 registers :=
                   updFn s.registers a (toU16 (toI16 (s.registers a) * toI16 (s.registers b)))
                 pc := s.pc + 2 }
      else .fault "register index out of bounds"
    else .fault "register index out of bounds"
  else .fault "ram index out of bounds"

/-- `Inst::Div`: signed 16-bit division, skipped (write and all) when the
divisor register reads 0 or the destination is register 0.  Rust's `/`
panics on `i16::MIN / -1` in every build profile: that is a fault. -/
def execDiv (s : VM) : StepResult :=
  if s.pc + 1 < 1024 then
    let a := s.ram s.pc
    let b := s.ram (s.pc + 1)
    if b < 16 then
      if s.registers b ≠ 0 ∧ a ≠ 0 then
        if a < 16 then
          let x := toI16 (s.registers a)
          let y := toI16 (s.registers b)
          if x = -32768 ∧ y = -1 then .fault "attempt to divide with overflow"
          else
            .ok [] { s with registers := updFn s.registers a (toU16 (Int.tdiv x y)),
                            pc := s.pc + 2 }
        else .fault "register index out of bounds"
      else .ok [] { s with pc := s.pc + 2 }
    else .fault "register index out of bounds"
  else .fault "ram index out of bounds"

/-- `Inst::Mod`: signed 16-bit remainder, with the same zero-divisor
no-op and the same `i16::MIN % -1` overflow panic as division. -/
def execMod (s : VM) : StepResult :=
  if s.pc + 1 < 1024 then
    let a := s.ram s.pc
    let b := s.ram (s.pc + 1)
    if b < 16 then
      if s.registers b ≠ 0 ∧ a ≠ 0 then
        if a < 16 then
          let x := toI16 (s.registers a)
          let y := toI16 (s.registers b)
          if x = -32768 ∧ y = -1 then
            .fault "attempt to calculate the remainder with overflow"
          else
            .ok [] { s with registers := updFn s.registers a (toU16 (Int.tmod x y)),
                            pc := s.pc + 2 }
        else .fault "register index out of bounds"
      else .ok [] { s with pc := s.pc + 2 }
    else .fault "register index out of bounds"
  else .fault "ram index out of bounds"

/-- `Inst::Neg`: signed 16-bit negation (release-profile wrapping),
skipped when the register is 0. -/
def execNeg (s : VM) : StepResult :=
  if s.pc < 1024 then
    let reg := s.ram s.pc
    if reg = 0 then .ok [] { s with pc := s.pc + 1 }
    else if reg < 16 then
      .ok [] { s with registers := updFn s.registers reg (toU16 (-(toI16 (s.registers reg)))),
                      pc := s.pc + 1 }
    else .fault "register index out of bounds"
  else .fault "ram index out of bounds"

/-- `Inst::GreaterThan`: signed comparison into the condition flag. -/
def execGreaterThan (s : VM) : StepResult :=
  if s.pc + 1 < 1024 then
    let a := s.ram s.pc
    let b := s.ram (s.pc + 1)
    if a < 16 then
      if b < 16 then
        .ok [] { s with skip_flag := decide (toI16 (s.registers a) > toI16 (s.registers b)),
                        pc := s.pc + 2 }
      else .fault "register index out of bounds"
    else .fault "register index out of bounds"
  else .fault "ram index out of bounds"

/-- `Inst::LessThan`. -/
def execLessThan (s : VM) : StepResult :=
  if s.pc + 1 < 1024 then
    let a := s.ram s.pc
    let b := s.ram (s.pc + 1)
    if a < 16 then
      if b < 16 then
        .ok [] { s with skip_flag := decide (toI16 (s.registers a) < toI16 (s.registers b)),
                        pc := s.pc + 2 }
      else .fault "register index out of bounds"
    else .fault "register index out of bounds"
  else .fault "ram index out of bounds"

/-- `Inst::GreaterEqual`. -/
def execGreaterEqual (s : VM) : StepResult :=
  if s.pc + 1 < 1024 then
    let a := s.ram s.pc
    let b := s.ram (s.pc + 1)
    if a < 16 then
      if b < 16 then
        .ok [] { s with skip_flag := decide (toI16 (s.registers a) ≥ toI16 (s.registers b)),
                        pc := s.pc + 2 }
      else .fault "register index out of bounds"
    else .fault "register index out of bounds"
  else .fault "ram index out of bounds"

/-- `Inst::LessEqual`. -/
def execLessEqual (s : VM) : StepResult :=
  if s.pc + 1 < 1024 then
    let a := s.ram s.pc
    let b := s.ram (s.pc + 1)
    if a < 16 then
      if b < 16 then
        .ok [] { s with skip_flag := decide (toI16 (s.registers a) ≤ toI16 (s.registers b)),
                        pc := s.pc + 2 }
      else .fault "register index out of bounds"
    else .fault "register index out of bounds"
  else .fault "ram index out of bounds"

/-- `Inst::Equal`: raw `u16` equality into the flag. -/
def execEqual (s : VM) : StepResult :=
  if s.pc + 1 < 1024 then
    let a := s.ram s.pc
    let b := s.ram (s.pc + 1)
    if a < 16 then
      if b < 16 then
        .ok [] { s with skip_flag := decide (s.registers a = s.registers b), pc := s.pc + 2 }
      else .fault "register index out of bounds"
    else .fault "register index out of bounds"
  else .fault "ram index out of bounds"

/-- `Inst::NotEqual`: raw `u16` inequality into the flag. -/
def execNotEqual (s : VM) : StepResult :=
  if s.pc + 1 < 1024 then
    let a := s.ram s.pc
    let b := s.ram (s.pc + 1)
    if a < 16 then
      if b < 16 then
        .ok [] { s with skip_flag := decide (s.registers a ≠ s.registers b), pc := s.pc + 2 }
      else .fault "register index out of bounds"
    else .fault "register index out of bounds"
  else .fault "ram index out of bounds"

/-- `Inst::Return`: increment sp by 2, load the return address from the
incremented sp into the scratch register 14, and jump to it. -/
def execReturn (s : VM) : StepResult :=
  let registers1 :=
    updFn s.registers SP_REGISTER ((s.registers SP_REGISTER + 2) % 65536)
  let sp := registers1 SP_REGISTER
  if (sp + 1) % 65536 < 1024 then
    let registers2 := updFn registers1 AT_REGISTER (s.ram ((sp + 1) % 65536))
    if sp < 1024 then
      let registers3 :=
        updFn registers2 AT_REGISTER (registers2 AT_REGISTER ||| s.ram sp <<< 8)
      .ok [] { s with registers := registers3, pc := registers3 AT_REGISTER }
    else .fault "ram index out of bounds"
  else .fault "ram index out of bounds"

/-- `Inst::Call`: read the big-endian absolute target, push the
post-operand pc as the return address (same store order as push) and jump
to the target. -/
def execCall (s : VM) : StepResult :=
  if s.pc + 1 < 1024 then
    let low_bytes := s.ram (s.pc + 1)
    let high_bytes := s.ram s.pc
    let pc1 := s.pc + 2
    let sp := s.registers SP_REGISTER
    let registers1 := updFn s.registers SP_REGISTER ((sp + 65534) % 65536)
    if (sp + 1) % 65536 < 1024 then
      let ram1 := updFn s.ram ((sp + 1) % 65536) (pc1 % 256)
      if sp < 1024 then
        let ram2 := updFn ram1 sp (pc1 / 256 % 256)
        .ok [] { registers := registers1, ram := ram2, pc := high_bytes <<< 8 ||| low_bytes,
                 skip_flag := s.skip_flag }
      else .fault "ram index out of bounds"
    else .fault "ram index out of bounds"
  else .fault "ram index out of bounds"

/-- `Inst::Mov`: copy the second register into the first, skipped when
the destination is register 0. -/
def execMov (s : VM) : StepResult :=
  if s.pc + 1 < 1024 then
    let a := s.ram s.pc
    let b := s.ram (s.pc + 1)
    if a = 0 then .ok [] { s with pc := s.pc + 2 }
    else if a < 16 then
      if b < 16 then
        .ok [] { s with registers := updFn s.registers a (s.registers b), pc := s.pc + 2 }
      else .fault "register index out of bounds"
    else .fault "register index out of bounds"
  else .fault "ram index out of bounds"

/-- The format selection of `Inst::Debug`'s `match b`: each numbered mode
reads `registers[a]` (so faults when `a ≥ 16`); the default arm dumps the
machine state and never reads `registers[a]`. -/
def debugEvent (a b : Nat) (s : VM) : Except String OutEvent :=
  match b with
  | 0 => if a < 16 then .ok (.line (Nat.repr (s.registers a)))
         else .error "register index out of bounds"
  | 1 => if a < 16 then .ok (.line (toHex hexChar (s.registers a)))
         else .error "register index out of bounds"
  | 2 => if a < 16 then .ok (.line (padZero 5 (Nat.repr (s.registers a))))
         else .error "register index out of bounds"
  | 3 => if a < 16 then .ok (.line (padZero 4 (toHex hexCharUpper (s.registers a))))
         else .error "register index out of bounds"
  | 4 => if a < 16 then .ok (.line ("0x" ++ padZero 4 (toHex hexCharUpper (s.registers a))))
         else .error "register index out of bounds"
  | 10 => if a < 16 then .ok (.text (Nat.repr (s.registers a)))
          else .error "register index out of bounds"
  | 11 => if a < 16 then .ok (.text (toHex hexChar (s.registers a)))
          else .error "register index out of bounds"
  | 12 => if a < 16 then .ok (.text (padZero 5 (Nat.repr (s.registers a))))
          else .error "register index out of bounds"
  | 13 => if a < 16 then .ok (.text (padZero 4 (toHex hexCharUpper (s.registers a))))
          else .error "register index out of bounds"
  | 14 => if a < 16 then .ok (.text ("0x" ++ padZero 4 (toHex hexCharUpper (s.registers a))))
          else .error "register index out of bounds"
  | _ => .ok .dump

/-- `Inst::Debug`. -/
def execDebug (s : VM) : StepResult :=
  if s.pc + 1 < 1024 then
    let a := s.ram s.pc
    let b := s.ram (s.pc + 1)
    match debugEvent a b s with
    | .ok ev => .ok [ev] { s with pc := s.pc + 2 }
    | .error e => .fault e
  else .fault "ram index out of bounds"

def execInst : Inst → VM → StepResult
  | .Nop, s => execNop s
  | .Exit, s => execExit s
  | .JumpFw, s => execJumpFw s
  | .JumpBw, s => execJumpBw s
  | .Then, s => execThen s
  | .Otherwise, s => execOtherwise s
  | .SetByte, s => execSetByte s
  | .SetShort, s => execSetShort s
  | .Push, s => execPush s
  | .Pop, s => execPop s
  | .Add, s => execAdd s
  | .Sub, s => execSub s
  | .Mul, s => execMul s
  | .Div, s => execDiv s
  | .Mod, s => execMod s
  | .Neg, s => execNeg s
  | .GreaterThan, s => execGreaterThan s
  | .LessThan, s => execLessThan s
  | .GreaterEqual, s => execGreaterEqual s
  | .LessEqual, s => execLessEqual s
  | .Equal, s => execEqual s
  | .NotEqual, s => execNotEqual s
  | .Return, s => execReturn s
  | .Call, s => execCall s
  | .Mov, s => execMov s
  | .Debug, s => execDebug s

/-- One iteration of `VM::run`'s fetch-decode-execute loop: fetch the
opcode byte at the pc (fault if the pc is outside ram), advance the pc
past it, and dispatch. -/
def step (s : VM) : StepResult :=
  if s.pc < 1024 then
    match decodeInst (s.ram s.pc) with
    | some i => execInst i { s with pc := s.pc + 1 }
    | none => .fault "Invalid instruction"
  else .fault "ram index out of bounds"

inductive RunResult where
  | halted (out : List OutEvent) (s : VM)
  | faulted (out : List OutEvent) (msg : String)
  | outOfFuel (out : List OutEvent) (s : VM)

/-- `VM::run`: iterate `step` until `Exit` (halt) or a fault, collecting
the `Debug` output in order, with a fuel bound on the iteration count. -/
def VM.run : Nat → VM → List OutEvent → RunResult
  | 0, s, acc => .outOfFuel acc s
  | fuel + 1, s, acc =>
    match step s with
    | .ok out s1 => VM.run fuel s1 (acc ++ out)
    | .halt s1 => .halted acc s1
    | .fault m => .faulted acc m

/-- `VM::new` + loading the program bytes at address 0 (`VM::set`) +
`VM::reset` (sp to `1024 - 2`, pc to 0). -/
def boot (prog : List Nat) : VM :=
  { registers := fun i => if i = SP_REGISTER then 1022 else 0,
    ram := fun i => prog.getD i 0,
    pc := 0,
    skip_flag := false }

/-- A VM state from association lists of register and ram cells (cells
not listed are 0). -/
def tableFn (entries : List (Nat × Nat)) : Nat → Nat :=
  fun j => (match entries.find? (fun e => e.1 == j) with
            | some e => e.2
            | none => 0)

def vmOf (regs ram : List (Nat × Nat)) (pc : Nat) (flag : Bool) : VM :=
  { registers := tableFn regs, ram := tableFn ram, pc := pc, skip_flag := flag }

/-! Observation helpers used to state the claims. -/

def StepResult.stateOf : StepResult → Option VM
  | .ok _ t => some t
  | .halt t => some t
  | .fault _ => none

/-- Register `i` after one step (`none` on a fault). -/
def stepRegs (s : VM) (i : Nat) : Option Nat := (step s).stateOf.map (fun t => t.registers i)

/-- Ram cell `j` after one step (`none` on a fault). -/
def stepRam (s : VM) (j : Nat) : Option Nat := (step s).stateOf.map (fun t => t.ram j)

/-- The pc after one step (`none` on a fault). -/
def stepPC (s : VM) : Option Nat := (step s).stateOf.map (fun t => t.pc)

/-- The condition flag after one step (`none` on a fault). -/
def stepFlag (s : VM) : Option Bool := (step s).stateOf.map (fun t => t.skip_flag)

/-- The output of one step (`none` unless the step completed normally). -/
def stepOut (s : VM) : Option (List OutEvent) :=
  match step s with
  | .ok out _ => some out
  | _ => none

/-- Whether one step faults. -/
def stepFaults (s : VM) : Bool :=
  match step s with
  | .fault _ => true
  | _ => false

/-- Register `i` after two consecutive normal steps. -/
def run2reg (s : VM) (i : Nat) : Option Nat :=
  match step s with
  | .ok _ t =>
    match step t with
    | .ok _ u => some (u.registers i)
    | _ => none
  | _ => none

def RunResult.events : RunResult → List OutEvent
  | .halted out _ => out
  | .faulted out _ => out
  | .outOfFuel out _ => out

def RunResult.isHalted : RunResult → Bool
  | .halted _ _ => true
  | _ => false

/-- The final pc, for a run that reached `Exit`. -/
def RunResult.finalPC : RunResult → Option Nat
  | .halted _ s => some s.pc
  | _ => none

/-- A final register value, for a run that reached `Exit`. -/
def RunResult.finalReg : RunResult → Nat → Option Nat
  | .halted _ s, i => some (s.registers i)
  | _, _ => none

/-! ## Concrete inputs used by the claims -/

/-- A forward jump over one instruction to a label, then the explicit
`exit` (C1). -/
def srcC1 : List Char := "jmp l\nnop\nl:\nexit".toList

/-- The end-to-end scenario source of C2. -/
def srcC2 : List Char := "set a, 5\nset b, 3\nadd a, b\ndbg a, 0\nexit".toList

/-- The image `assemble srcC2` produces. -/
def progC2 : List Nat := [6, 1, 5, 6, 2, 3, 10, 1, 2, 25, 1, 0, 1, 1]

/-- A hex immediate per the claim's own example (C7). -/
def srcC7 : List Char := "set a, 0x10".toList

/-- A hex immediate whose trailing digit is a hex letter (C7). -/
def srcC7b : List Char := "set a, 0x1f".toList

/-- The same jump target referenced backward: label first, then the jump
(C1). -/
def srcC1b : List Char := "l:\nnop\njmp l\nexit".toList

/-! ## Helper lemmas -/

theorem updFn_self (f : Nat → Nat) (i v : Nat) : updFn f i v i = v := by
  simp [updFn]

theorem updFn_ne (f : Nat → Nat) (i v j : Nat) (h : i ≠ j) : updFn f i v j = f j := by
  simp [updFn, h]

/-- Recombining a low byte and a high byte with `|` is ordinary positional
arithmetic. -/
theorem lor_lowHigh (lo hi : Nat) (h : lo < 256) : lo ||| hi <<< 8 = lo + hi * 256 := by
  apply Nat.eq_of_testBit_eq
  intro i
  rw [Nat.testBit_lor, Nat.testBit_shiftLeft]
  rcases Nat.lt_or_ge i 8 with h8 | h8
  · have hmod : (lo + hi * 256) % 256 = lo := by omega
    have hlow := Nat.testBit_mod_two_pow (lo + hi * 256) 8 i
    rw [show (2 : Nat) ^ 8 = 256 from rfl, hmod] at hlow
    rw [hlow]
    simp [h8, Nat.not_le.mpr h8]
  · obtain ⟨j, rfl⟩ : ∃ j, i = 8 + j := ⟨i - 8, by omega⟩
    have hlo : lo.testBit (8 + j) = false := Nat.testBit_eq_false_of_lt (by
      calc lo < 256 := h
      _ = 2 ^ 8 := rfl
      _ ≤ 2 ^ (8 + j) := Nat.pow_le_pow_right (by norm_num) (by omega))
    have hshift : (lo + hi * 256) >>> 8 = hi := by
      rw [Nat.shiftRight_eq_div_pow, show (2 : Nat) ^ 8 = 256 from rfl]
      omega
    rw [hlo, ← Nat.testBit_shiftRight, hshift]
    simp

/-- Characterization of a successful push step whose source register is
not the stack pointer itself: the value is stored at the pre-decrement
stack position, high byte at `sp`, low byte at `sp + 1`, and the
stack-pointer register decreases by 2 (wrapping). -/
theorem step_push_eq (s : VM) (r : Nat)
    (hpc : s.pc + 1 < 1024) (hop : s.ram s.pc = 8) (harg : s.ram (s.pc + 1) = r)
    (hr : r < 16) (hr15 : r ≠ 15) (hsp : s.registers 15 ≤ 1022) :
    step s = .ok []
      { registers := updFn s.registers 15 ((s.registers 15 + 65534) % 65536),
        ram := updFn (updFn s.ram (s.registers 15 + 1) (s.registers r % 256))
                 (s.registers 15) (s.registers r / 256 % 256),
        pc := s.pc + 2, skip_flag := s.skip_flag } := by
  unfold step
  rw [if_pos (by omega : s.pc < 1024), hop]
  show execPush { s with pc := s.pc + 1 } = _
  unfold execPush
  dsimp only
  rw [show SP_REGISTER = 15 from rfl, harg]
  have e1 : (s.registers 15 + 1) % 65536 = s.registers 15 + 1 :=
    Nat.mod_eq_of_lt (by omega)
  rw [e1]
  rw [if_pos (by omega : s.pc + 1 < 1024), if_pos hr,
    if_pos (by omega : s.registers 15 + 1 < 1024),
    if_pos (by omega : s.registers 15 < 1024)]
  rw [updFn_ne s.registers 15 ((s.registers 15 + 65534) % 65536) r (Ne.symm hr15)]

/-- Characterization of a successful pop step into a register other than
0: the stack-pointer register is incremented by 2 (wrapping) first, and
the destination receives the two bytes at the incremented position, high
byte from the new `sp`, low byte from the new `sp + 1`. -/
theorem step_pop_eq (s : VM) (r : Nat)
    (hpc : s.pc + 1 < 1024) (hop : s.ram s.pc = 9) (harg : s.ram (s.pc + 1) = r)
    (hr : r < 16) (hr0 : r ≠ 0)
    (hspN : (s.registers 15 + 2) % 65536 ≤ 1022) :
    step s = .ok []
      { registers :=
          updFn
            (updFn (updFn s.registers 15 ((s.registers 15 + 2) % 65536)) r
              (s.ram ((s.registers 15 + 2) % 65536 + 1)))
            r
            (s.ram ((s.registers 15 + 2) % 65536 + 1) |||
              s.ram ((s.registers 15 + 2) % 65536) <<< 8),
        ram := s.ram, pc := s.pc + 2, skip_flag := s.skip_flag } := by
  unfold step
  rw [if_pos (by omega : s.pc < 1024), hop]
  show execPop { s with pc := s.pc + 1 } = _
  unfold execPop
  dsimp only
  rw [show SP_REGISTER = 15 from rfl, harg]
  rw [updFn_self]
  have e1 : ((s.registers 15 + 2) % 65536 + 1) % 65536 = (s.registers 15 + 2) % 65536 + 1 :=
    Nat.mod_eq_of_lt (by omega)
  rw [e1]
  rw [if_pos (by omega : s.pc + 1 < 1024), if_neg hr0, if_pos hr,
    if_pos (by omega : (s.registers 15 + 2) % 65536 + 1 < 1024),
    if_pos (by omega : (s.registers 15 + 2) % 65536 < 1024)]
  rw [updFn_self]

set_option maxHeartbeats 2000000 in
/-- Every instruction arm leaves register 0 at zero: each register write
is either guarded by a nonzero destination check or targets register 14
or 15. -/
theorem execInst_reg0 (i : Inst) (t : VM) (h0 : t.registers 0 = 0) :
    ((execInst i t).stateOf.map (fun u => u.registers 0)).getD 0 = 0 := by
  cases i <;>
    unfold execInst execNop execExit execJumpFw execJumpBw execThen execOtherwise
      execSetByte execSetShort execPush execPop execAdd execSub execMul execDiv execMod
      execNeg execGreaterThan execLessThan execGreaterEqual execLessEqual execEqual
      execNotEqual execReturn execCall execMov execDebug <;>
    dsimp only <;>
    (repeat' split) <;>
    dsimp only [StepResult.stateOf, Option.map, Option.getD, updFn] <;>
    simp_all [SP_REGISTER, AT_REGISTER]

/-! ## The claims -/

/-- C1: the claim says an executed assembled jump sets the pc to the
label's resolved byte offset, for forward and backward references alike.
The assembler does resolve `l` to the same offset regardless of
declaration order and encodes the signed distance as described (forward
opcode 2 with distance 3 for `jmp l; nop; l: exit`), but executing that
forward jump leaves the pc at 5, two bytes past the label's offset 3: the
VM adds `operand + 1` to a pc that has already passed the opcode byte,
while the operand was computed from the instruction's start.  A backward
reference (`l: nop; jmp l`, distance -1 stored as 255) does land exactly
on its label's offset 0, so the forward case contradicts the claimed
symmetry. -/
theorem C1_forward_jump_lands_past_label :
    assemble srcC1 = Except.ok [2, 3, 0, 1, 1] ∧
    labelOffset srcC1 "l" = some 3 ∧
    stepPC (boot [2, 3, 0, 1, 1]) = some 5 ∧
    stepPC (boot [2, 3, 0, 1, 1]) ≠ some 3 ∧
    assemble srcC1b = Except.ok [0, 3, 255, 1, 1] ∧
    labelOffset srcC1b "l" = some 0 ∧
    stepPC { boot [0, 3, 255, 1, 1] with pc := 1 } = some 0 :=
  ⟨rfl, by decide, by decide, by decide, rfl, by decide, by decide⟩

/-- C2: assembling `set a, 5 / set b, 3 / add a, b / dbg a, 0 / exit`
succeeds (producing `progC2`, whose byte 12 is the explicit exit opcode),
and running the image on a freshly reset VM prints exactly the decimal
line `8`, halts at the exit opcode (final pc 13, one past the opcode at
offset 12), with register a (register 1) holding 8. -/
theorem C2_end_to_end_prints_8 :
    assemble srcC2 = Except.ok progC2 ∧
    (VM.run 20 (boot progC2) []).events = [.line "8"] ∧
    (VM.run 20 (boot progC2) []).isHalted = true ∧
    (VM.run 20 (boot progC2) []).finalReg 1 = some 8 ∧
    (VM.run 20 (boot progC2) []).finalPC = some 13 ∧
    progC2.getD 12 0 = instCode .Exit :=
  ⟨rfl, by decide, by decide, by decide, by decide, by decide⟩

/-- C3 counterexample: with sp = 1000 and register 1 holding 0x1234,
executing push writes nothing at the new stack-pointer position 998/999 —
the bytes go to the pre-decrement position 1000/1001 — refuting "writes
… at the new stack-pointer position".  And a pop with sp = 998 loads
0x1234 from cells 1000/1001 (the post-increment position), not 0xABCD
from the current position 998/999 as the claimed order ("reads … at the
current stack-pointer position and then increments") would produce. -/
theorem C3_push_pop_position_counterexample :
    stepRegs (vmOf [(1, 4660), (15, 1000)] [(0, 8), (1, 1)] 0 false) 15 = some 998 ∧
    stepRam (vmOf [(1, 4660), (15, 1000)] [(0, 8), (1, 1)] 0 false) 998 = some 0 ∧
    stepRam (vmOf [(1, 4660), (15, 1000)] [(0, 8), (1, 1)] 0 false) 999 = some 0 ∧
    stepRam (vmOf [(1, 4660), (15, 1000)] [(0, 8), (1, 1)] 0 false) 1000 = some 18 ∧
    stepRam (vmOf [(1, 4660), (15, 1000)] [(0, 8), (1, 1)] 0 false) 1001 = some 52 ∧
    stepRam (vmOf [(1, 4660), (15, 1000)] [(0, 8), (1, 1)] 0 false) 998 ≠ some 18 ∧
    stepRegs (vmOf [(15, 998)] [(0, 9), (1, 2), (998, 171), (999, 205), (1000, 18), (1001, 52)]
        0 false) 2 = some 4660 ∧
    stepRegs (vmOf [(15, 998)] [(0, 9), (1, 2), (998, 171), (999, 205), (1000, 18), (1001, 52)]
        0 false) 2 ≠ some 43981 := by
  decide

/-- C3 amended: push decrements the stack-pointer register by 2 but
stores the source register's 16-bit value at the pre-decrement position —
high byte at the old sp, low byte at the old sp + 1 (for a source other
than the stack pointer itself, whose pushed value would be the already
decremented one); pop increments the stack pointer by 2 first and then
reads the two bytes at the post-increment position — high byte from the
new sp, low byte from the new sp + 1 — into the destination register
(here stated for a destination that is neither register 0 nor the stack
pointer).  Everything else (other registers, all other memory, the flag)
is untouched, and the pc advances by the 2-byte encoded length. -/
theorem C3_push_pop_position_amended (s t : VM) (r q : Nat) :
    (s.ram s.pc = 8 → s.ram (s.pc + 1) = r → s.pc + 1 < 1024 → r < 16 → r ≠ 15 →
      s.registers 15 ≤ 1022 →
      stepRegs s 15 = some ((s.registers 15 + 65534) % 65536) ∧
      stepRam s (s.registers 15) = some (s.registers r / 256 % 256) ∧
      stepRam s (s.registers 15 + 1) = some (s.registers r % 256) ∧
      (∀ i, i ≠ 15 → stepRegs s i = some (s.registers i)) ∧
      (∀ j, j ≠ s.registers 15 → j ≠ s.registers 15 + 1 → stepRam s j = some (s.ram j)) ∧
      stepPC s = some (s.pc + 2) ∧ stepFlag s = some s.skip_flag) ∧
    (t.ram t.pc = 9 → t.ram (t.pc + 1) = q → t.pc + 1 < 1024 → q < 16 → q ≠ 0 → q ≠ 15 →
      t.registers 15 ≤ 1020 →
      stepRegs t 15 = some (t.registers 15 + 2) ∧
      stepRegs t q = some (t.ram (t.registers 15 + 3) ||| t.ram (t.registers 15 + 2) <<< 8) ∧
      (∀ i, i ≠ 15 → i ≠ q → stepRegs t i = some (t.registers i)) ∧
      (∀ j, stepRam t j = some (t.ram j)) ∧
      stepPC t = some (t.pc + 2) ∧ stepFlag t = some t.skip_flag) := by
  constructor
  · intro hop harg hpc hr hr15 hsp
    have h := step_push_eq s r hpc hop harg hr hr15 hsp
    refine ⟨?_, ?_, ?_, fun i hi => ?_, fun j hj1 hj2 => ?_, ?_, ?_⟩
    · simp [stepRegs, h, StepResult.stateOf, updFn_self]
    · simp [stepRam, h, StepResult.stateOf, updFn_self]
    · simp [stepRam, h, StepResult.stateOf, updFn_self,
        updFn_ne _ (s.registers 15) _ _ (by omega : s.registers 15 ≠ s.registers 15 + 1)]
    · simp [stepRegs, h, StepResult.stateOf, updFn_ne _ _ _ _ (Ne.symm hi)]
    · simp [stepRam, h, StepResult.stateOf, updFn_ne _ _ _ _ (Ne.symm hj1),
        updFn_ne _ _ _ _ (Ne.symm hj2)]
    · simp [stepPC, h, StepResult.stateOf]
    · simp [stepFlag, h, StepResult.stateOf]
  · intro hop harg hpc hq hq0 hq15 hsp
    have h := step_pop_eq t q hpc hop harg hq hq0 (by omega)
    have eN : (t.registers 15 + 2) % 65536 = t.registers 15 + 2 :=
      Nat.mod_eq_of_lt (by omega)
    rw [eN] at h
    have e3 : t.registers 15 + 2 + 1 = t.registers 15 + 3 := by omega
    rw [e3] at h
    refine ⟨?_, ?_, fun i hi1 hi2 => ?_, fun j => ?_, ?_, ?_⟩
    · simp [stepRegs, h, StepResult.stateOf, updFn_self, updFn_ne _ q _ 15 hq15]
    · simp [stepRegs, h, StepResult.stateOf, updFn_self]
    · simp [stepRegs, h, StepResult.stateOf, updFn_ne _ _ _ _ (Ne.symm hi2),
        updFn_ne _ 15 _ _ (Ne.symm hi1)]
    · simp [stepRam, h, StepResult.stateOf]
    · simp [stepPC, h, StepResult.stateOf]
    · simp [stepFlag, h, StepResult.stateOf]

/-- C3 amended, instantiated: pushing register 1 (holding 0x1234) with
sp = 1000 stores 0x12 at 1000 and 0x34 at 1001 and leaves sp = 998; a pop
into register 2 with sp = 996 moves sp to 998 and loads the bytes at
998/999. -/
theorem C3_push_pop_position_amended_witness :
    stepRegs (vmOf [(1, 4660), (15, 1000)] [(0, 8), (1, 1)] 0 false) 15 =
      some ((1000 + 65534) % 65536) ∧
    stepRam (vmOf [(1, 4660), (15, 1000)] [(0, 8), (1, 1)] 0 false) 1000 = some 18 ∧
    stepRam (vmOf [(1, 4660), (15, 1000)] [(0, 8), (1, 1)] 0 false) 1001 = some 52 ∧
    stepRegs (vmOf [(15, 996)] [(0, 9), (1, 2), (998, 18), (999, 52)] 0 false) 15 =
      some 998 ∧
    stepRegs (vmOf [(15, 996)] [(0, 9), (1, 2), (998, 18), (999, 52)] 0 false) 2 =
      some 4660 := by
  have hp := (C3_push_pop_position_amended
    (vmOf [(1, 4660), (15, 1000)] [(0, 8), (1, 1)] 0 false)
    (vmOf [(15, 996)] [(0, 9), (1, 2), (998, 18), (999, 52)] 0 false) 1 2).1
    (by decide) (by decide) (by decide) (by decide) (by decide) (by decide)
  have hq := (C3_push_pop_position_amended
    (vmOf [(1, 4660), (15, 1000)] [(0, 8), (1, 1)] 0 false)
    (vmOf [(15, 996)] [(0, 9), (1, 2), (998, 18), (999, 52)] 0 false) 1 2).2
    (by decide) (by decide) (by decide) (by decide) (by decide) (by decide) (by decide)
  exact ⟨hp.1, hp.2.1, hp.2.2.1, hq.1, hq.2.1⟩

/-- C4 counterexample: the claim quantifies over every register other
than 0, but for register 15 — the stack pointer itself — push stores the
already decremented stack pointer, so `push sp; pop sp` from sp = 1022
(all touched indices in bounds) ends with sp = 1020, not the pre-push
1022. -/
theorem C4_push_pop_roundtrip_counterexample :
    (vmOf [(15, 1022)] [(0, 8), (1, 15), (2, 9), (3, 15)] 0 false).registers 15 = 1022 ∧
    run2reg (vmOf [(15, 1022)] [(0, 8), (1, 15), (2, 9), (3, 15)] 0 false) 15 = some 1020 ∧
    run2reg (vmOf [(15, 1022)] [(0, 8), (1, 15), (2, 9), (3, 15)] 0 false) 15 ≠ some 1022 := by
  decide

/-- C4 amended: for every register r other than register 0 and other than
the stack-pointer register 15, executing `push r` immediately followed by
`pop r` (the pop instruction's bytes not being overwritten by the push's
two stack writes) restores register r and returns the stack pointer to
its exact pre-push value, provided the stack pointer keeps the touched
memory indices inside the 1024-byte memory. -/
theorem C4_push_pop_roundtrip_amended (s : VM) (r : Nat)
    (hr : r < 16) (hr0 : r ≠ 0) (hr15 : r ≠ 15)
    (hv : s.registers r < 65536)
    (hsp : s.registers 15 ≤ 1022)
    (hpc : s.pc + 3 < 1024)
    (hop1 : s.ram s.pc = 8) (harg1 : s.ram (s.pc + 1) = r)
    (hop2 : s.ram (s.pc + 2) = 9) (harg2 : s.ram (s.pc + 3) = r)
    (hd1 : s.registers 15 ≠ s.pc + 2) (hd2 : s.registers 15 ≠ s.pc + 3)
    (hd3 : s.registers 15 + 1 ≠ s.pc + 2) (hd4 : s.registers 15 + 1 ≠ s.pc + 3) :
    run2reg s r = some (s.registers r) ∧ run2reg s 15 = some (s.registers 15) := by
  have h1 := step_push_eq s r (by omega) hop1 harg1 hr hr15 hsp
  have h2 := step_pop_eq
    { registers := updFn s.registers 15 ((s.registers 15 + 65534) % 65536),
      ram := updFn (updFn s.ram (s.registers 15 + 1) (s.registers r % 256))
               (s.registers 15) (s.registers r / 256 % 256),
      pc := s.pc + 2, skip_flag := s.skip_flag } r
    (by dsimp only; omega)
    (by
      dsimp only
      rw [updFn_ne _ _ _ _ hd1, updFn_ne _ _ _ _ hd3]
      exact hop2)
    (by
      dsimp only
      rw [show s.pc + 2 + 1 = s.pc + 3 from by omega,
        updFn_ne _ _ _ _ hd2, updFn_ne _ _ _ _ hd4]
      exact harg2)
    hr hr0
    (by dsimp only; rw [updFn_self]; omega)
  dsimp only at h2
  rw [updFn_self] at h2
  have eN : ((s.registers 15 + 65534) % 65536 + 2) % 65536 = s.registers 15 := by omega
  rw [eN] at h2
  rw [updFn_ne _ (s.registers 15) _ _
    (by omega : s.registers 15 ≠ s.registers 15 + 1)] at h2
  rw [updFn_self, updFn_self] at h2
  rw [lor_lowHigh _ _ (by omega)] at h2
  rw [show s.registers r % 256 + s.registers r / 256 % 256 * 256 = s.registers r from
    by omega] at h2
  constructor
  · unfold run2reg
    rw [h1]
    simp only []
    rw [h2]
    simp [updFn_self]
  · unfold run2reg
    rw [h1]
    simp only []
    rw [h2]
    simp [updFn_ne _ r _ 15 hr15, updFn_self]

/-- C4 amended, instantiated: `push a; pop a` with register a = 0x1234
and sp = 1000 restores both register a and the stack pointer. -/
theorem C4_push_pop_roundtrip_amended_witness :
    run2reg (vmOf [(1, 4660), (15, 1000)] [(0, 8), (1, 1), (2, 9), (3, 1)] 0 false) 1 =
      some 4660 ∧
    run2reg (vmOf [(1, 4660), (15, 1000)] [(0, 8), (1, 1), (2, 9), (3, 1)] 0 false) 15 =
      some 1000 :=
  C4_push_pop_roundtrip_amended
    (vmOf [(1, 4660), (15, 1000)] [(0, 8), (1, 1), (2, 9), (3, 1)] 0 false) 1
    (by decide) (by decide) (by decide) (by decide) (by decide) (by decide)
    (by decide) (by decide) (by decide) (by decide) (by decide) (by decide)
    (by decide) (by decide)

/-- C5: register 0 reads 0 in the initial (booted) state, and one
machine step from any state in which register 0 reads 0 leaves it
reading 0 — every write that names register 0 as destination is silently
discarded, and all unconditional register writes target registers 14 or
15. -/
theorem C5_register_zero_invariant (prog : List Nat) (s : VM)
    (h0 : s.registers 0 = 0) :
    (boot prog).registers 0 = 0 ∧ (stepRegs s 0).getD 0 = 0 := by
  constructor
  · rfl
  · unfold stepRegs step
    by_cases hpc : s.pc < 1024
    · rw [if_pos hpc]
      rcases hd : decodeInst (s.ram s.pc) with _ | i
      · simp [StepResult.stateOf]
      · exact execInst_reg0 i _ h0
    · rw [if_neg hpc]
      simp [StepResult.stateOf]

/-- C5 instantiated at the booted end-to-end program. -/
theorem C5_register_zero_invariant_witness :
    (boot progC2).registers 0 = 0 ∧ (stepRegs (boot progC2) 0).getD 0 = 0 :=
  C5_register_zero_invariant progC2 (boot progC2) rfl

/-- C6: a divide or modulo instruction whose divisor register reads 0
does not fault; it leaves every register, every memory cell and the flag
unchanged, produces no output, and advances the pc by the instruction's
encoded length 3. -/
theorem C6_zero_divisor_noop (s : VM)
    (hop : s.ram s.pc = 13 ∨ s.ram s.pc = 14)
    (hpc : s.pc + 2 < 1024)
    (hb : s.ram (s.pc + 2) < 16)
    (hzero : s.registers (s.ram (s.pc + 2)) = 0) :
    stepFaults s = false ∧
    stepOut s = some [] ∧
    (∀ i, stepRegs s i = some (s.registers i)) ∧
    (∀ j, stepRam s j = some (s.ram j)) ∧
    stepFlag s = some s.skip_flag ∧
    stepPC s = some (s.pc + 3) := by
  have hstep : step s = .ok [] { s with pc := s.pc + 3 } := by
    unfold step
    rw [if_pos (by omega : s.pc < 1024)]
    have e1 : s.pc + 1 + 1 = s.pc + 2 := by omega
    have e2 : s.pc + 1 + 2 = s.pc + 3 := by omega
    rcases hop with h | h <;> rw [h]
    · show execDiv { s with pc := s.pc + 1 } = _
      unfold execDiv
      dsimp only
      rw [if_pos (by omega : s.pc + 1 + 1 < 1024), e1, if_pos hb,
        if_neg (by simp [hzero]), e2]
    · show execMod { s with pc := s.pc + 1 } = _
      unfold execMod
      dsimp only
      rw [if_pos (by omega : s.pc + 1 + 1 < 1024), e1, if_pos hb,
        if_neg (by simp [hzero]), e2]
  refine ⟨?_, ?_, fun i => ?_, fun j => ?_, ?_, ?_⟩ <;>
    simp [stepFaults, stepOut, stepRegs, stepRam, stepFlag, stepPC, hstep,
      StepResult.stateOf]

/-- C6 instantiated: `div a, b` and `mod a, b` with register b = 0 leave
register a at 7 and advance the pc to 3. -/
theorem C6_zero_divisor_noop_witness :
    stepFaults (vmOf [(1, 7)] [(0, 13), (1, 1), (2, 2)] 0 false) = false ∧
    stepRegs (vmOf [(1, 7)] [(0, 13), (1, 1), (2, 2)] 0 false) 1 = some 7 ∧
    stepPC (vmOf [(1, 7)] [(0, 13), (1, 1), (2, 2)] 0 false) = some 3 ∧
    stepFaults (vmOf [(1, 7)] [(0, 14), (1, 1), (2, 2)] 0 false) = false ∧
    stepRegs (vmOf [(1, 7)] [(0, 14), (1, 1), (2, 2)] 0 false) 1 = some 7 := by
  have hd := C6_zero_divisor_noop (vmOf [(1, 7)] [(0, 13), (1, 1), (2, 2)] 0 false)
    (Or.inl (by decide)) (by decide) (by decide) (by decide)
  have hm := C6_zero_divisor_noop (vmOf [(1, 7)] [(0, 14), (1, 1), (2, 2)] 0 false)
    (Or.inr (by decide)) (by decide) (by decide) (by decide)
  exact ⟨hd.1, hd.2.2.1 1, hd.2.2.2.2.2, hm.1, hm.2.2.1 1⟩

/-- C7: the lexer does recognize the three-character hex lookahead — both
`0x10` and `0x1f` in `set a, _` are consumed as one integer token
spanning the whole literal, hex digits included — but the parser's
integer evaluation feeds the raw span text, `0x` prefix and all, to a
plain decimal parse, which rejects the `x`, so assembling `set a, 0x10`
fails instead of yielding 16. -/
theorem C7_hex_literal_rejected_at_parse :
    (read_all_tokens srcC7).getD 3 ⟨.Eof, (0, 0)⟩ = ⟨.Int, (7, 11)⟩ ∧
    (read_all_tokens srcC7b).getD 3 ⟨.Eof, (0, 0)⟩ = ⟨.Int, (7, 11)⟩ ∧
    parse_i32 "0x10" = .error "Unable to parse integer: invalid digit found in string" ∧
    parseSource srcC7 = .error "Unable to parse integer: invalid digit found in string" ∧
    parseSource srcC7b = .error "Unable to parse integer: invalid digit found in string" := by
  refine ⟨by decide, by decide, rfl, rfl, rfl⟩

/-- C8: with the destination register holding 0x8000 (signed -32768) and
the divisor register holding 0xFFFF (signed -1) — a nonzero divisor —
both divide and modulo fault with an arithmetic-overflow panic instead of
writing a result or acting as a no-op. -/
theorem C8_div_overflow_fault :
    (vmOf [(1, 32768), (2, 65535)] [(0, 13), (1, 1), (2, 2)] 0 false).registers 1 = 32768 ∧
    (vmOf [(1, 32768), (2, 65535)] [(0, 13), (1, 1), (2, 2)] 0 false).registers 2 = 65535 ∧
    toI16 32768 = -32768 ∧
    toI16 65535 = -1 ∧
    (65535 : Nat) ≠ 0 ∧
    stepFaults (vmOf [(1, 32768), (2, 65535)] [(0, 13), (1, 1), (2, 2)] 0 false) = true ∧
    stepFaults (vmOf [(1, 32768), (2, 65535)] [(0, 14), (1, 1), (2, 2)] 0 false) = true := by
  decide

/-- C9: a pop whose destination operand is register 0 still increments
the stack-pointer register by 2 (wrapping), reads no stack memory, and
leaves every other register, all of memory and the flag unchanged, with
the pc advanced by the 2-byte encoded length. -/
theorem C9_pop_discard_still_increments_sp (s : VM)
    (hpc : s.pc + 1 < 1024) (hop : s.ram s.pc = 9) (harg : s.ram (s.pc + 1) = 0) :
    stepRegs s 15 = some ((s.registers 15 + 2) % 65536) ∧
    (∀ i, i ≠ 15 → stepRegs s i = some (s.registers i)) ∧
    (∀ j, stepRam s j = some (s.ram j)) ∧
    stepPC s = some (s.pc + 2) ∧
    stepFlag s = some s.skip_flag ∧
    stepOut s = some [] := by
  have hstep : step s = .ok []
      { s with registers := updFn s.registers 15 ((s.registers 15 + 2) % 65536),
               pc := s.pc + 2 } := by
    unfold step
    rw [if_pos (by omega : s.pc < 1024), hop]
    show execPop { s with pc := s.pc + 1 } = _
    unfold execPop
    dsimp only
    rw [if_pos (by omega : s.pc + 1 < 1024), harg]
    rw [if_pos rfl]
    have e : s.pc + 1 + 1 = s.pc + 2 := by omega
    rw [e]
    rfl
  refine ⟨?_, fun i hi => ?_, fun j => ?_, ?_, ?_, ?_⟩
  · simp [stepRegs, hstep, StepResult.stateOf, updFn_self]
  · simp [stepRegs, hstep, StepResult.stateOf, updFn_ne _ _ _ _ (Ne.symm hi)]
  · simp [stepRam, hstep, StepResult.stateOf]
  · simp [stepPC, hstep, StepResult.stateOf]
  · simp [stepFlag, hstep, StepResult.stateOf]
  · simp [stepOut, hstep]

/-- C9 instantiated: `pop zero` with sp = 1000 moves sp to 1002 and
changes nothing else. -/
theorem C9_pop_discard_still_increments_sp_witness :
    stepRegs (vmOf [(15, 1000), (3, 9)] [(0, 9), (1, 0), (500, 77)] 0 false) 15 =
      some ((1000 + 2) % 65536) ∧
    stepRegs (vmOf [(15, 1000), (3, 9)] [(0, 9), (1, 0), (500, 77)] 0 false) 3 = some 9 ∧
    stepRam (vmOf [(15, 1000), (3, 9)] [(0, 9), (1, 0), (500, 77)] 0 false) 500 = some 77 ∧
    stepPC (vmOf [(15, 1000), (3, 9)] [(0, 9), (1, 0), (500, 77)] 0 false) = some 2 := by
  have h := C9_pop_discard_still_increments_sp
    (vmOf [(15, 1000), (3, 9)] [(0, 9), (1, 0), (500, 77)] 0 false)
    (by decide) (by decide) (by decide)
  exact ⟨h.1, h.2.1 3 (by decide), h.2.2.1 500, h.2.2.2.1⟩

/-- C10: an executed `then` or `otherwise` marker (opcode 4 or 5) never
changes the condition flag, any register or any memory cell, and produces
no output — it only moves the pc — so consecutive markers all test the
flag left by the same last comparison. -/
theorem C10_skip_markers_preserve_state (s : VM)
    (hop : s.ram s.pc = 4 ∨ s.ram s.pc = 5)
    (hnf : stepFaults s = false) :
    (∀ i, stepRegs s i = some (s.registers i)) ∧
    (∀ j, stepRam s j = some (s.ram j)) ∧
    stepFlag s = some s.skip_flag ∧
    stepOut s = some [] := by
  have hstep : ∃ n, step s = .ok [] { s with pc := n } := by
    by_cases hpc : s.pc < 1024
    · rcases hop with h | h
      · by_cases hf : s.skip_flag
        · refine ⟨s.pc + 1, ?_⟩
          unfold step
          rw [if_pos hpc, h]
          show execThen { s with pc := s.pc + 1 } = _
          unfold execThen
          rw [if_neg (by simp [hf])]
        · by_cases h2 : s.pc + 1 < 1024
          · by_cases h3 : s.ram (s.pc + 1) < 26
            · refine ⟨s.pc + 1 + INSTRUCTION_LEN.getD (s.ram (s.pc + 1)) 0, ?_⟩
              unfold step
              rw [if_pos hpc, h]
              show execThen { s with pc := s.pc + 1 } = _
              unfold execThen
              dsimp only
              rw [if_pos (by simp [hf]), if_pos h2, if_pos h3]
            · exfalso
              have hv : step s = .fault "instruction length table index out of bounds" := by
                unfold step
                rw [if_pos hpc, h]
                show execThen { s with pc := s.pc + 1 } = _
                unfold execThen
                dsimp only
                rw [if_pos (by simp [hf]), if_pos h2, if_neg h3]
              unfold stepFaults at hnf
              rw [hv] at hnf
              simp at hnf
          · exfalso
            have hv : step s = .fault "ram index out of bounds" := by
              unfold step
              rw [if_pos hpc, h]
              show execThen { s with pc := s.pc + 1 } = _
              unfold execThen
              dsimp only
              rw [if_pos (by simp [hf]), if_neg h2]
            unfold stepFaults at hnf
            rw [hv] at hnf
            simp at hnf
      · by_cases hf : s.skip_flag
        · by_cases h2 : s.pc + 1 < 1024
          · by_cases h3 : s.ram (s.pc + 1) < 26
            · refine ⟨s.pc + 1 + INSTRUCTION_LEN.getD (s.ram (s.pc + 1)) 0, ?_⟩
              unfold step
              rw [if_pos hpc, h]
              show execOtherwise { s with pc := s.pc + 1 } = _
              unfold execOtherwise
              dsimp only
              rw [if_pos (by simp [hf]), if_pos h2, if_pos h3]
            · exfalso
              have hv : step s = .fault "instruction length table index out of bounds" := by
                unfold step
                rw [if_pos hpc, h]
                show execOtherwise { s with pc := s.pc + 1 } = _
                unfold execOtherwise
                dsimp only
                rw [if_pos (by simp [hf]), if_pos h2, if_neg h3]
              unfold stepFaults at hnf
              rw [hv] at hnf
              simp at hnf
          · exfalso
            have hv : step s = .fault "ram index out of bounds" := by
              unfold step
              rw [if_pos hpc, h]
              show execOtherwise { s with pc := s.pc + 1 } = _
              unfold execOtherwise
              dsimp only
              rw [if_pos (by simp [hf]), if_neg h2]
            unfold stepFaults at hnf
            rw [hv] at hnf
            simp at hnf
        · refine ⟨s.pc + 1, ?_⟩
          unfold step
          rw [if_pos hpc, h]
          show execOtherwise { s with pc := s.pc + 1 } = _
          unfold execOtherwise
          rw [if_neg (by simp [hf])]
    · exfalso
      have hv : step s = .fault "ram index out of bounds" := by
        unfold step
        rw [if_neg hpc]
      unfold stepFaults at hnf
      rw [hv] at hnf
      simp at hnf
  obtain ⟨n, hs⟩ := hstep
  refine ⟨fun i => ?_, fun j => ?_, ?_, ?_⟩ <;>
    simp [stepRegs, stepRam, stepFlag, stepOut, hs, StepResult.stateOf]

/-- C10 instantiated: a `then` with the flag clear, guarding a `nop`,
leaves register 2, memory and the flag untouched. -/
theorem C10_skip_markers_preserve_state_witness :
    stepRegs (vmOf [(2, 5)] [(0, 4), (1, 0)] 0 false) 2 = some 5 ∧
    stepRam (vmOf [(2, 5)] [(0, 4), (1, 0)] 0 false) 1 = some 0 ∧
    stepFlag (vmOf [(2, 5)] [(0, 4), (1, 0)] 0 false) = some false ∧
    stepOut (vmOf [(2, 5)] [(0, 4), (1, 0)] 0 false) = some [] := by
  have h := C10_skip_markers_preserve_state (vmOf [(2, 5)] [(0, 4), (1, 0)] 0 false)
    (Or.inl (by decide)) (by decide)
  exact ⟨h.1 2, h.2.1 1, h.2.2.1, h.2.2.2⟩

end MicroVM
